import Mathlib

/-!
Formal model of `auto_deploy.py`, a release-promotion script that opens a
change request bumping an image tag, waits for verification checks, mirrors
check results onto a local repository's tagged commit, and conditionally
approves, merges and verifies the deployment.

Modelling conventions:
* Python strings are modelled as `List Char`; `str.split("\n")` becomes
  `List.splitOn '\n'` and `"\n".join` becomes `List.intercalate ['\n']`.
* Interactions with the hosting platform are modelled by passing the host's
  responses explicitly: a polling loop takes the list of snapshots the host
  would return on successive fetches, and a function that issues host calls
  returns the list of calls it made.
* A Python function that may raise is modelled with `Except`.
-/

/-- The fixed line marker `export IMAGE_VERSION=` that `update_content`
looks for (as a list of characters). -/
def marker : List Char := "export IMAGE_VERSION=".toList

/-- Body of the `for line in file_content.split("\n")` loop of
`update_content`: a line starting with the marker is replaced wholesale by
`export IMAGE_VERSION=<release_tag>`; any other line passes through. -/
def lineTransform (release_tag : List Char) (line : List Char) : List Char :=
  if marker.isPrefixOf line then marker ++ release_tag else line

/-- `update_content(file_content, release_tag)` from `auto_deploy.py`:
split on newline, rewrite every marker line, re-join with newline. -/
def update_content (file_content : List Char) (release_tag : List Char) : List Char :=
  List.intercalate ['\n'] ((file_content.splitOn '\n').map (lineTransform release_tag))

/-- Every element produced by `splitOnP p` consists of characters on which
`p` is false. -/
theorem splitOnP_forall_not {α : Type} (p : α → Bool) (xs : List α) :
    ∀ l ∈ xs.splitOnP p, ∀ y ∈ l, p y = false := by
  induction xs with
  | nil =>
    intro l hl y hy
    simp only [List.splitOnP_nil, List.mem_singleton] at hl
    subst hl
    simp at hy
  | cons x xs ih =>
    intro l hl y hy
    rw [List.splitOnP_cons] at hl
    cases hx : p x with
    | true =>
      rw [if_pos hx] at hl
      rcases List.mem_cons.mp hl with h | h
      · subst h; simp at hy
      · exact ih l h y hy
    | false =>
      rw [if_neg (by simp [hx])] at hl
      rcases hsp : xs.splitOnP p with _ | ⟨hd, tl⟩
      · exact absurd hsp (List.splitOnP_ne_nil p xs)
      · rw [hsp] at hl
        simp only [List.modifyHead] at hl
        rcases List.mem_cons.mp hl with h | h
        · subst h
          rcases List.mem_cons.mp hy with h' | h'
          · subst h'; exact hx
          · exact ih hd (hsp ▸ List.mem_cons_self hd tl) y h'
        · exact ih l (hsp ▸ List.mem_cons_of_mem hd h) y hy

/-- No line produced by splitting on a newline contains a newline. -/
theorem mem_splitOn_newline (s : List Char) : ∀ l ∈ s.splitOn '\n', '\n' ∉ l := by
  intro l hl hc
  have h := splitOnP_forall_not (· == '\n') s l (by simpa [List.splitOn] using hl) '\n' hc
  simp at h

/-- A list is a `isPrefixOf`-prefix of itself followed by anything. -/
theorem isPrefixOf_append_self {α : Type} [BEq α] [LawfulBEq α] (l t : List α) :
    l.isPrefixOf (l ++ t) = true := by
  induction l with
  | nil => simp
  | cons a l ih => simp [List.isPrefixOf, ih]

/-- Splitting the output of `update_content` on newline yields exactly the
transformed lines of the input, provided the release tag has no newline. -/
theorem update_content_splitOn (s t : List Char) (ht : '\n' ∉ t) :
    (update_content s t).splitOn '\n' = (s.splitOn '\n').map (lineTransform t) := by
  unfold update_content
  apply List.splitOn_intercalate
  · intro l hl
    rcases List.mem_map.mp hl with ⟨x, hx, rfl⟩
    unfold lineTransform
    split
    · intro hc
      rcases List.mem_append.mp hc with h | h
      · exact absurd h (by decide)
      · exact ht h
    · exact mem_splitOn_newline s x hx
  · rw [Ne, List.map_eq_nil_iff]
    simpa [List.splitOn] using List.splitOnP_ne_nil (· == '\n') s

/-- An input with no marker line is returned unchanged by `update_content`. -/
theorem update_content_no_match (s t : List Char)
    (h : ∀ line ∈ s.splitOn '\n', marker.isPrefixOf line = false) :
    update_content s t = s := by
  unfold update_content
  have hmap : (s.splitOn '\n').map (lineTransform t) = s.splitOn '\n' := by
    have := List.map_congr_left (l := s.splitOn '\n')
      (f := lineTransform t) (g := id) (by
        intro x hx
        simp [lineTransform, h x hx])
    simpa using this
  rw [hmap]
  exact List.intercalate_splitOn s '\n'

/-- C3 (amended): for a release identifier containing no newline, the output
of `update_content` has exactly as many lines as the input, every input line
not beginning with the marker reappears byte-identical at the same position,
and an input with no matching line is returned unchanged. -/
theorem update_content_line_structure (s t : List Char) (ht : '\n' ∉ t) :
    ((update_content s t).splitOn '\n').length = (s.splitOn '\n').length
    ∧ (∀ (i : ℕ) (line : List Char),
        (s.splitOn '\n')[i]? = some line → marker.isPrefixOf line = false →
        ((update_content s t).splitOn '\n')[i]? = some line)
    ∧ ((∀ line ∈ s.splitOn '\n', marker.isPrefixOf line = false) →
        update_content s t = s) := by
  refine ⟨?_, ?_, update_content_no_match s t⟩
  · rw [update_content_splitOn s t ht, List.length_map]
  · intro i line hi hm
    rw [update_content_splitOn s t ht, List.getElem?_map, hi]
    simp [lineTransform, hm]

/-- A one-line input whose single line carries the marker. -/
def oneMarkerLine : List Char := "export IMAGE_VERSION=x".toList

/-- A release tag that contains a newline character. -/
def tagWithNewline : List Char := "a\nb".toList

/-- C3 counterexample: with a release identifier containing a newline, the
output of `update_content` does not have the same number of lines as the
input (1 line in, 2 lines out). -/
theorem update_content_line_count_cex :
    ((update_content oneMarkerLine tagWithNewline).splitOn '\n').length ≠
      (oneMarkerLine.splitOn '\n').length := by decide

/-- Sample three-line file content with one marker line. -/
def sampleContent : List Char := "FOO=1\nexport IMAGE_VERSION=old\nBAR=2".toList

/-- Sample newline-free release tag. -/
def sampleTag : List Char := "v2".toList

/-- Witness for C3: the amended theorem applied at concrete input. -/
theorem update_content_line_structure_witness :
    ('\n' ∉ sampleTag)
    ∧ ((update_content sampleContent sampleTag).splitOn '\n').length =
        (sampleContent.splitOn '\n').length :=
  ⟨by decide, (update_content_line_structure sampleContent sampleTag (by decide)).1⟩

/-- C2 (amended): `update_content` replaces every marker line, not at most
one; with a newline-free release identifier the number of marker lines is
preserved, and every marker line of the output is exactly
`export IMAGE_VERSION=<release_tag>`. -/
theorem update_content_marker_lines (s t : List Char) (ht : '\n' ∉ t) :
    ((update_content s t).splitOn '\n').countP (fun l => marker.isPrefixOf l)
      = (s.splitOn '\n').countP (fun l => marker.isPrefixOf l)
    ∧ ∀ line ∈ (update_content s t).splitOn '\n',
        marker.isPrefixOf line = true → line = marker ++ t := by
  constructor
  · rw [update_content_splitOn s t ht, List.countP_map]
    apply List.countP_congr
    intro x _
    by_cases hm : marker.isPrefixOf x
    · simp [Function.comp, lineTransform, hm, isPrefixOf_append_self]
    · simp [Function.comp, lineTransform, hm]
  · intro line hline hm
    rw [update_content_splitOn s t ht] at hline
    rcases List.mem_map.mp hline with ⟨x, hx, rfl⟩
    by_cases hq : marker.isPrefixOf x
    · simp [lineTransform, hq]
    · rw [lineTransform, if_neg hq] at hm
      exact absurd hm (by simpa using hq)

/-- A two-line input where both lines carry the marker. -/
def twoMarkerLines : List Char := "export IMAGE_VERSION=a\nexport IMAGE_VERSION=b".toList

/-- Sample newline-free release tag for the C2 counterexample. -/
def plainTag : List Char := "t1".toList

/-- C2 counterexample: the input has at least one marker line, yet after the
transform the number of marker lines is 2, not exactly 1 — both lines were
replaced, so more than one line was replaced. -/
theorem update_content_marker_lines_cex :
    1 ≤ (twoMarkerLines.splitOn '\n').countP (fun l => marker.isPrefixOf l)
    ∧ ((update_content twoMarkerLines plainTag).splitOn '\n').countP
        (fun l => marker.isPrefixOf l) ≠ 1 := by decide

/-- Witness for C2: the amended theorem applied at concrete input. -/
theorem update_content_marker_lines_witness :
    ('\n' ∉ sampleTag)
    ∧ ((update_content sampleContent sampleTag).splitOn '\n').countP
        (fun l => marker.isPrefixOf l)
      = (sampleContent.splitOn '\n').countP (fun l => marker.isPrefixOf l) :=
  ⟨by decide, (update_content_marker_lines sampleContent sampleTag (by decide)).1⟩

/-- C10 (amended): `update_content` is idempotent for every release tag that
contains no newline character. -/
theorem update_content_idempotent (s t : List Char) (ht : '\n' ∉ t) :
    update_content (update_content s t) t = update_content s t := by
  have h1 := update_content_splitOn s t ht
  show List.intercalate ['\n'] (((update_content s t).splitOn '\n').map (lineTransform t))
      = update_content s t
  rw [h1, List.map_map]
  have h2 : (s.splitOn '\n').map (lineTransform t ∘ lineTransform t)
      = (s.splitOn '\n').map (lineTransform t) := by
    apply List.map_congr_left
    intro x _
    by_cases hm : marker.isPrefixOf x
    · simp [Function.comp, lineTransform, hm, isPrefixOf_append_self]
    · simp [Function.comp, lineTransform, hm]
  rw [h2]
  rfl

/-- C10 counterexample: with a release tag containing a newline, applying
`update_content` twice differs from applying it once. -/
theorem update_content_idempotent_cex :
    update_content (update_content oneMarkerLine tagWithNewline) tagWithNewline ≠
      update_content oneMarkerLine tagWithNewline := by decide

/-- Witness for C10: idempotence at concrete input. -/
theorem update_content_idempotent_witness :
    ('\n' ∉ sampleTag)
    ∧ update_content (update_content sampleContent sampleTag) sampleTag =
        update_content sampleContent sampleTag :=
  ⟨by decide, update_content_idempotent sampleContent sampleTag (by decide)⟩

/-- A host (GithubException-style) error carrying its HTTP status code. -/
structure GithubException where
  status : Nat
deriving DecidableEq

/-- Outcome of the `repo.get_branch(new_branch)` existence probe inside
`upsert_branch`: either the branch was found, or the host raised. -/
inductive BranchProbe where
  | found
  | raised (e : GithubException)
deriving DecidableEq

/-- A call issued against the version-control host. -/
inductive HostCall where
  | getBranchCall (branch : String)
  | getContentsCall (path : String)
  | createRefCall (ref : String)
  | updateFileCall (path : String)
  | createPullCall (head : String) (base : String)
deriving DecidableEq

/-- `upsert_branch` from `auto_deploy.py`, modelled over the probe outcome:
it calls `get_branch`; on success it only logs; on any `GithubException`
(the bare `except GithubException:` clause) it calls `create_git_ref`.
The result is the list of host calls made, or a propagated error. -/
def upsert_branch (probe : BranchProbe) (new_branch : String) :
    Except GithubException (List HostCall) :=
  match probe with
  | .found => .ok [.getBranchCall new_branch]
  | .raised _ => .ok [.getBranchCall new_branch,
      .createRefCall ("refs/heads/" ++ new_branch)]

/-- C4 counterexample: a host error with status 500 (not "not found") during
the existence check does not propagate — `upsert_branch` swallows it and
issues the branch-creation call instead. -/
theorem upsert_branch_swallows_cex :
    (⟨500⟩ : GithubException).status ≠ 404
    ∧ upsert_branch (BranchProbe.raised ⟨500⟩) "rel" =
        .ok [HostCall.getBranchCall "rel", HostCall.createRefCall "refs/heads/rel"]
    ∧ upsert_branch (BranchProbe.raised ⟨500⟩) "rel" ≠
        .error (⟨500⟩ : GithubException) :=
  ⟨by decide, rfl, fun h => Except.noConfusion h⟩

/-- C4 (amended): the existence check swallows every `GithubException`
(regardless of status) and falls through to branch creation; when the branch
already exists the call is a no-op that issues no creation call. -/
theorem upsert_branch_behavior (new_branch : String) :
    upsert_branch BranchProbe.found new_branch = .ok [.getBranchCall new_branch]
    ∧ ∀ e : GithubException,
        upsert_branch (BranchProbe.raised e) new_branch =
          .ok [.getBranchCall new_branch,
            .createRefCall ("refs/heads/" ++ new_branch)] := by
  exact ⟨rfl, fun _ => rfl⟩

/-- An open pull request as returned by the host's pull-request query. -/
structure PullRequest where
  number : Nat
  headSha : String
deriving DecidableEq

/-- `fetch_pr_details` from `auto_deploy.py`, modelled over the list of open
pull requests the host returns for `head=owner:release_tag, base=main`:
raises `ValueError` unless exactly one matches, else returns the number and
head SHA of that single request. -/
def fetch_pr_details (pulls : List PullRequest) : Except String (Nat × String) :=
  if h : pulls.length = 1 then
    let pull := pulls.get ⟨0, by omega⟩
    .ok (pull.number, pull.headSha)
  else
    .error ("Failed to fetch PR details: found " ++ toString pulls.length
      ++ " open PRs with the expected head")

/-- C8: `fetch_pr_details` errors whenever the number of matching open pull
requests is not exactly one, and returns the single match's number and head
SHA otherwise. -/
theorem fetch_pr_details_cardinality (pulls : List PullRequest) :
    (pulls.length ≠ 1 → ∃ msg, fetch_pr_details pulls = .error msg)
    ∧ (∀ p : PullRequest, pulls = [p] →
        fetch_pr_details pulls = .ok (p.number, p.headSha)) := by
  constructor
  · intro h
    exact ⟨"Failed to fetch PR details: found " ++ toString pulls.length
      ++ " open PRs with the expected head", by rw [fetch_pr_details, dif_neg h]⟩
  · intro p hp
    subst hp
    rfl

/-- Witness for C8: zero matches raise, a single match returns its data. -/
theorem fetch_pr_details_cardinality_witness :
    (([] : List PullRequest).length ≠ 1
      ∧ ∃ msg, fetch_pr_details [] = .error msg)
    ∧ ([(⟨7, "abc"⟩ : PullRequest)] = [(⟨7, "abc"⟩ : PullRequest)]
      ∧ fetch_pr_details [⟨7, "abc"⟩] = .ok (7, "abc")) :=
  ⟨⟨by decide, (fetch_pr_details_cardinality []).1 (by decide)⟩,
   ⟨rfl, (fetch_pr_details_cardinality [⟨7, "abc"⟩]).2 ⟨7, "abc"⟩ rfl⟩⟩

/-- The deployment inputs relevant to pull-request creation. -/
structure DeployInputs where
  release_tag : String
  prod_env_file_path : String
  pre_prod_env_file_path : String
deriving DecidableEq

/-- The host calls issued by `upsert_branch` (which never propagates the
probe's error, as its `except` clause swallows every `GithubException`). -/
def upsertCalls (probe : BranchProbe) (new_branch : String) : List HostCall :=
  match upsert_branch probe new_branch with
  | .ok calls => calls
  | .error _ => []

/-- Host calls of `create_pull_request` from `auto_deploy.py`: ensure the
release branch exists, write the updated content to it, open the pull
request. -/
def create_pull_request_calls (release_tag env_file_path base_branch : String)
    (probe : BranchProbe) : List HostCall :=
  upsertCalls probe release_tag
    ++ [.updateFileCall env_file_path, .createPullCall release_tag base_branch]

/-- `handle_pr_creation` from `auto_deploy.py`, modelled as the pair of the
host calls it makes and its outcome (the target-environment label on
success, or the raised `ValueError` message). The environment file path and
the target label are selected from `skip_merge`; an empty selected path
raises before any host call. `prepare_environment` contributes the
base-branch lookup and the file read. -/
def handle_pr_creation (inputs : DeployInputs) (base_branch : String)
    (skip_merge : Bool) (probe : BranchProbe) :
    List HostCall × Except String String :=
  let env_file_path := if skip_merge then inputs.prod_env_file_path
    else inputs.pre_prod_env_file_path
  let target_env := if skip_merge then "PROD" else "PRE-PROD"
  if env_file_path = "" then
    ([], .error ("Environment file path not provided for " ++ target_env
      ++ " environment"))
  else
    ([HostCall.getBranchCall base_branch, HostCall.getContentsCall env_file_path]
        ++ create_pull_request_calls inputs.release_tag env_file_path base_branch probe,
      .ok target_env)

/-- C9: `handle_pr_creation` selects the prod path with label PROD when
`skip_merge` is true and the pre-prod path with label PRE-PROD when it is
false; an empty selected path raises a configuration error with no host call
made, and a non-empty one leads to the file read and file write on that
path. -/
theorem handle_pr_creation_selection (inputs : DeployInputs) (base_branch : String)
    (probe : BranchProbe) :
    (inputs.prod_env_file_path = "" →
      handle_pr_creation inputs base_branch true probe =
        ([], .error "Environment file path not provided for PROD environment"))
    ∧ (inputs.pre_prod_env_file_path = "" →
      handle_pr_creation inputs base_branch false probe =
        ([], .error "Environment file path not provided for PRE-PROD environment"))
    ∧ (inputs.prod_env_file_path ≠ "" →
      ∃ calls, handle_pr_creation inputs base_branch true probe = (calls, .ok "PROD")
        ∧ HostCall.getContentsCall inputs.prod_env_file_path ∈ calls
        ∧ HostCall.updateFileCall inputs.prod_env_file_path ∈ calls)
    ∧ (inputs.pre_prod_env_file_path ≠ "" →
      ∃ calls, handle_pr_creation inputs base_branch false probe =
          (calls, .ok "PRE-PROD")
        ∧ HostCall.getContentsCall inputs.pre_prod_env_file_path ∈ calls
        ∧ HostCall.updateFileCall inputs.pre_prod_env_file_path ∈ calls) := by
  refine ⟨fun h => ?_, fun h => ?_, fun h => ?_, fun h => ?_⟩
  · simp [handle_pr_creation, h]
  · simp [handle_pr_creation, h]
  · refine ⟨[HostCall.getBranchCall base_branch,
      HostCall.getContentsCall inputs.prod_env_file_path]
        ++ create_pull_request_calls inputs.release_tag inputs.prod_env_file_path
            base_branch probe, ?_, ?_, ?_⟩
    · simp [handle_pr_creation, h]
    · simp
    · simp [create_pull_request_calls]
  · refine ⟨[HostCall.getBranchCall base_branch,
      HostCall.getContentsCall inputs.pre_prod_env_file_path]
        ++ create_pull_request_calls inputs.release_tag inputs.pre_prod_env_file_path
            base_branch probe, ?_, ?_, ?_⟩
    · simp [handle_pr_creation, h]
    · simp
    · simp [create_pull_request_calls]

/-- Witness for C9: concrete inputs with an empty prod path and a configured
pre-prod path. -/
theorem handle_pr_creation_selection_witness :
    ((⟨"r1", "", "pre.env"⟩ : DeployInputs).prod_env_file_path = ""
      ∧ handle_pr_creation ⟨"r1", "", "pre.env"⟩ "main" true BranchProbe.found =
        ([], .error "Environment file path not provided for PROD environment"))
    ∧ ((⟨"r1", "", "pre.env"⟩ : DeployInputs).pre_prod_env_file_path ≠ ""
      ∧ ∃ calls,
        handle_pr_creation ⟨"r1", "", "pre.env"⟩ "main" false BranchProbe.found =
          (calls, .ok "PRE-PROD")
        ∧ HostCall.getContentsCall "pre.env" ∈ calls
        ∧ HostCall.updateFileCall "pre.env" ∈ calls) :=
  ⟨⟨rfl, (handle_pr_creation_selection ⟨"r1", "", "pre.env"⟩ "main"
      BranchProbe.found).1 rfl⟩,
   ⟨by decide, (handle_pr_creation_selection ⟨"r1", "", "pre.env"⟩ "main"
      BranchProbe.found).2.2.2 (by decide)⟩⟩

/-- Outcome of one HTTP attempt inside `verify_deployment`: an HTTP response
with a status code, or a raised `requests.RequestException`. -/
inductive AttemptOutcome where
  | response (status : Nat)
  | transportError
deriving DecidableEq

/-- An attempt succeeds exactly when it is an HTTP response with status
200. -/
def attemptOk : AttemptOutcome → Bool
  | .response s => s == 200
  | .transportError => false

/-- The `for attempt in range(max_attempts)` loop of `verify_deployment`,
started at position `attempt`, over the host's per-attempt outcomes. It
returns the triple of the boolean result, the number of HTTP requests
issued, and the number of inter-attempt sleeps performed (the code sleeps
only when `attempt < max_attempts - 1`). -/
def verifyGo (outcomes : Nat → AttemptOutcome) (max_attempts : Nat)
    (attempt : Nat) : Bool × Nat × Nat :=
  if _h : attempt < max_attempts then
    if attemptOk (outcomes attempt) then (true, 1, 0)
    else
      let rest := verifyGo outcomes max_attempts (attempt + 1)
      (rest.1, rest.2.1 + 1,
        rest.2.2 + (if attempt < max_attempts - 1 then 1 else 0))
  else (false, 0, 0)
termination_by max_attempts - attempt

/-- `verify_deployment` from `auto_deploy.py`: run the bounded retry loop
from the first attempt. -/
def verify_deployment (outcomes : Nat → AttemptOutcome) (max_attempts : Nat) :
    Bool × Nat × Nat :=
  verifyGo outcomes max_attempts 0

/-- If every attempt from position `attempt` on fails, the loop returns
false after `max_attempts - attempt` requests and one fewer sleep. -/
theorem verifyGo_all_fail (outcomes : Nat → AttemptOutcome) (max_attempts : Nat) :
    ∀ (n attempt : Nat), max_attempts - attempt = n →
    (∀ i, attempt ≤ i → i < max_attempts → attemptOk (outcomes i) = false) →
    verifyGo outcomes max_attempts attempt =
      (false, max_attempts - attempt, max_attempts - attempt - 1) := by
  intro n
  induction n with
  | zero =>
    intro attempt hn _hf
    rw [verifyGo]
    rw [dif_neg (by omega)]
    simp [hn]
  | succ n ih =>
    intro attempt hn hf
    rw [verifyGo]
    rw [dif_pos (by omega)]
    rw [hf attempt le_rfl (by omega), if_neg (by simp)]
    have hrest := ih (attempt + 1) (by omega)
      (fun i hi hilt => hf i (by omega) hilt)
    rw [hrest]
    by_cases hlast : attempt < max_attempts - 1
    · rw [if_pos hlast]
      simp only [Prod.mk.injEq]
      exact ⟨trivial, by omega, by omega⟩
    · rw [if_neg hlast]
      simp only [Prod.mk.injEq]
      exact ⟨trivial, by omega, by omega⟩

/-- If the first success is at position `k`, the loop returns true after
`k + 1 - attempt` requests and `k - attempt` sleeps. -/
theorem verifyGo_first_success (outcomes : Nat → AttemptOutcome)
    (max_attempts : Nat) :
    ∀ (n attempt k : Nat), k - attempt = n → attempt ≤ k → k < max_attempts →
    attemptOk (outcomes k) = true →
    (∀ j, attempt ≤ j → j < k → attemptOk (outcomes j) = false) →
    verifyGo outcomes max_attempts attempt =
      (true, k + 1 - attempt, k - attempt) := by
  intro n
  induction n with
  | zero =>
    intro attempt k hn hak hkm hk _hf
    have : attempt = k := by omega
    subst this
    rw [verifyGo]
    rw [dif_pos hkm, if_pos hk]
    simp only [Prod.mk.injEq]
    exact ⟨trivial, by omega, by omega⟩
  | succ n ih =>
    intro attempt k hn hak hkm hk hf
    have hlt : attempt < k := by omega
    rw [verifyGo]
    rw [dif_pos (by omega)]
    rw [hf attempt le_rfl hlt, if_neg (by simp)]
    have hrest := ih (attempt + 1) k (by omega) (by omega) hkm hk
      (fun j hj hjk => hf j (by omega) hjk)
    rw [hrest]
    rw [if_pos (by omega)]
    simp only [Prod.mk.injEq]
    exact ⟨trivial, by omega, by omega⟩

/-- C7: `verify_deployment` returns true on the first HTTP 200, having made
exactly `k + 1` requests and `k` sleeps when the first 200 is attempt
index `k`; if every attempt yields a transport error or a non-200 status it
returns false after exactly `max_attempts` requests and `max_attempts - 1`
sleeps, raising nothing. -/
theorem verify_deployment_retry :
    (∀ (outcomes : Nat → AttemptOutcome) (max_attempts : Nat),
      (∀ i, i < max_attempts → attemptOk (outcomes i) = false) →
      verify_deployment outcomes max_attempts =
        (false, max_attempts, max_attempts - 1))
    ∧ (∀ (outcomes : Nat → AttemptOutcome) (max_attempts k : Nat),
      k < max_attempts → attemptOk (outcomes k) = true →
      (∀ j, j < k → attemptOk (outcomes j) = false) →
      verify_deployment outcomes max_attempts = (true, k + 1, k)) := by
  constructor
  · intro outcomes max_attempts hf
    have := verifyGo_all_fail outcomes max_attempts max_attempts 0 (by omega)
      (fun i _ hilt => hf i hilt)
    simpa [verify_deployment] using this
  · intro outcomes max_attempts k hkm hk hf
    have := verifyGo_first_success outcomes max_attempts k 0 k rfl (by omega) hkm hk
      (fun j _ hjk => hf j hjk)
    simpa [verify_deployment] using this

/-- Outcomes where every request raises a transport error. -/
def alwaysDown : Nat → AttemptOutcome := fun _ => AttemptOutcome.transportError

/-- Outcomes where the service returns 503 for the first three attempts and
200 from the fourth attempt (index 3) on. -/
def upOnFourth : Nat → AttemptOutcome := fun i =>
  if i < 3 then AttemptOutcome.response 503 else AttemptOutcome.response 200

/-- Witness for C7: ten failures give false after 10 attempts and 9 sleeps;
a 200 on the fourth attempt gives true after 4 attempts and 3 sleeps. -/
theorem verify_deployment_retry_witness :
    ((∀ i, i < 10 → attemptOk (alwaysDown i) = false)
      ∧ verify_deployment alwaysDown 10 = (false, 10, 9))
    ∧ ((3 < 10 ∧ attemptOk (upOnFourth 3) = true
        ∧ (∀ j, j < 3 → attemptOk (upOnFourth j) = false))
      ∧ verify_deployment upOnFourth 10 = (true, 4, 3)) :=
  ⟨⟨by decide, verify_deployment_retry.1 alwaysDown 10 (by decide)⟩,
   ⟨⟨by decide, by decide, by decide⟩,
    verify_deployment_retry.2 upOnFourth 10 3 (by decide) (by decide) (by decide)⟩⟩

/-- A verification task (check run) as observed on the host: its name, its
status string, and its conclusion (`none` while not concluded). -/
structure CheckRun where
  name : String
  status : String
  conclusion : Option String
deriving DecidableEq

/-- Baseline capture of `monitor_checks`: the set of check-run names observed
across all suites at the first enumeration. -/
def observedNames (runs : List CheckRun) : Finset String :=
  runs.foldl (fun s r => insert r.name s) ∅

/-- Body of the inner `for run in check_runs` loop of `monitor_checks`: a run
whose name is outside the baseline or whose status is not `completed` is
skipped; otherwise its name joins the completed set and, exactly when its
conclusion is the string `failure`, the failed set. -/
def pollStep (baseline : Finset String) (acc : Finset String × Finset String)
    (r : CheckRun) : Finset String × Finset String :=
  if r.name ∈ baseline then
    if r.status = "completed" then
      (insert r.name acc.1,
        if r.conclusion = some "failure" then insert r.name acc.2 else acc.2)
    else acc
  else acc

/-- One iteration of the `while True` loop of `monitor_checks`: the completed
and failed name sets recomputed from scratch over a fresh snapshot (the
concatenation of all suites' check runs). -/
def pollSets (baseline : Finset String) (runs : List CheckRun) :
    Finset String × Finset String :=
  runs.foldl (pollStep baseline) (∅, ∅)

/-- The `while True` poll loop of `monitor_checks` over the successive
snapshots the host returns: it exits on the first snapshot whose completed
baseline names equal the baseline, returning `true` exactly when no failed
check was recorded in that snapshot; `none` means the supplied snapshots ran
out before the loop exited. -/
def monitorLoop (baseline : Finset String) :
    List (List CheckRun) → Option Bool
  | [] => none
  | runs :: rest =>
    let ps := pollSets baseline runs
    if ps.1 = baseline then some (decide (ps.2 = ∅))
    else monitorLoop baseline rest

/-- `monitor_checks` from `auto_deploy.py`: the first snapshot (a separate
initial fetch) fixes the baseline names; the poll loop then runs over the
later snapshots. -/
def monitor_checks : List (List CheckRun) → Option Bool
  | [] => none
  | first :: rest => monitorLoop (observedNames first) rest

/-- Membership in the failed-checks set accumulated by the poll iteration. -/
theorem pollStep_foldl_snd_mem (baseline : Finset String) (a : String) :
    ∀ (runs : List CheckRun) (init : Finset String × Finset String),
    (a ∈ (runs.foldl (pollStep baseline) init).2 ↔
      a ∈ init.2 ∨ ∃ r ∈ runs, r.name = a ∧ r.name ∈ baseline
        ∧ r.status = "completed" ∧ r.conclusion = some "failure") := by
  intro runs
  induction runs with
  | nil => intro init; simp
  | cons r rs ih =>
    intro init
    rw [List.foldl_cons, ih]
    by_cases h1 : r.name ∈ baseline
    · by_cases h2 : r.status = "completed"
      · by_cases h3 : r.conclusion = some "failure"
        · simp only [pollStep, if_pos h1, if_pos h2, if_pos h3,
            Finset.mem_insert, List.mem_cons]
          constructor
          · rintro ((rfl | ha) | ⟨r', hr', hp⟩)
            · exact Or.inr ⟨r, Or.inl rfl, rfl, h1, h2, h3⟩
            · exact Or.inl ha
            · exact Or.inr ⟨r', Or.inr hr', hp⟩
          · rintro (ha | ⟨r', (rfl | hr'), hname, hp⟩)
            · exact Or.inl (Or.inr ha)
            · exact Or.inl (Or.inl hname.symm)
            · exact Or.inr ⟨r', hr', hname, hp⟩
        · simp only [pollStep, if_pos h1, if_pos h2, if_neg h3, List.mem_cons]
          constructor
          · rintro (ha | ⟨r', hr', hp⟩)
            · exact Or.inl ha
            · exact Or.inr ⟨r', Or.inr hr', hp⟩
          · rintro (ha | ⟨r', (rfl | hr'), hname, hb, hc, hd⟩)
            · exact Or.inl ha
            · exact absurd hd h3
            · exact Or.inr ⟨r', hr', hname, hb, hc, hd⟩
      · simp only [pollStep, if_pos h1, if_neg h2, List.mem_cons]
        constructor
        · rintro (ha | ⟨r', hr', hp⟩)
          · exact Or.inl ha
          · exact Or.inr ⟨r', Or.inr hr', hp⟩
        · rintro (ha | ⟨r', (rfl | hr'), hname, hb, hc, hd⟩)
          · exact Or.inl ha
          · exact absurd hc h2
          · exact Or.inr ⟨r', hr', hname, hb, hc, hd⟩
    · simp only [pollStep, if_neg h1, List.mem_cons]
      constructor
      · rintro (ha | ⟨r', hr', hp⟩)
        · exact Or.inl ha
        · exact Or.inr ⟨r', Or.inr hr', hp⟩
      · rintro (ha | ⟨r', (rfl | hr'), hname, hb, hc, hd⟩)
        · exact Or.inl ha
        · exact absurd hb h1
        · exact Or.inr ⟨r', hr', hname, hb, hc, hd⟩

/-- The failed set of one poll iteration is nonempty exactly when the
snapshot contains a baseline run completed with conclusion `failure`. -/
theorem pollSets_snd_nonempty (baseline : Finset String) (runs : List CheckRun) :
    ((pollSets baseline runs).2 ≠ ∅ ↔
      ∃ r ∈ runs, r.name ∈ baseline ∧ r.status = "completed"
        ∧ r.conclusion = some "failure") := by
  rw [← Finset.nonempty_iff_ne_empty]
  constructor
  · rintro ⟨a, ha⟩
    have h := (pollStep_foldl_snd_mem baseline a runs (∅, ∅)).mp ha
    rcases h with h | ⟨r, hr, _, hp⟩
    · simp at h
    · exact ⟨r, hr, hp⟩
  · rintro ⟨r, hr, hp⟩
    exact ⟨r.name,
      (pollStep_foldl_snd_mem baseline r.name runs (∅, ∅)).mpr
        (Or.inr ⟨r, hr, rfl, hp⟩)⟩

/-- Termination and verdict of the raw poll loop: a loop that returns a
verdict does so at a snapshot whose completed baseline names equal the
baseline, and the verdict is false exactly when that snapshot contains a
baseline run completed with conclusion `failure`. -/
theorem monitorLoop_spec (baseline : Finset String) :
    ∀ (polls : List (List CheckRun)) (b : Bool),
    monitorLoop baseline polls = some b →
    ∃ s ∈ polls, (pollSets baseline s).1 = baseline
      ∧ (b = false ↔ ∃ r ∈ s, r.name ∈ baseline ∧ r.status = "completed"
          ∧ r.conclusion = some "failure") := by
  intro polls
  induction polls with
  | nil => intro b h; exact absurd h (by simp [monitorLoop])
  | cons s rest ih =>
    intro b h
    simp only [monitorLoop] at h
    by_cases hc : (pollSets baseline s).1 = baseline
    · rw [if_pos hc] at h
      refine ⟨s, List.mem_cons_self s rest, hc, ?_⟩
      injection h with h'
      subst h'
      rw [← pollSets_snd_nonempty baseline s]
      by_cases he : (pollSets baseline s).2 = ∅
      · simp [he]
      · simp [he]
    · rw [if_neg hc] at h
      obtain ⟨s', hs', h1, h2⟩ := ih b h
      exact ⟨s', List.mem_cons_of_mem s hs', h1, h2⟩

/-- C1 (amended): a terminating run of `monitor_checks` ends at a snapshot
where all baseline tasks are completed, and the verdict is FAILURE exactly
when some baseline task is there completed with conclusion the exact string
`failure`; conclusions such as `timed_out`, `action_required`, `stale` or
`cancelled` do not make the verdict FAILURE. -/
theorem monitor_checks_verdict (first : List CheckRun)
    (rest : List (List CheckRun)) (b : Bool)
    (h : monitor_checks (first :: rest) = some b) :
    ∃ s ∈ rest, (pollSets (observedNames first) s).1 = observedNames first
      ∧ (b = false ↔ ∃ r ∈ s, r.name ∈ observedNames first
          ∧ r.status = "completed" ∧ r.conclusion = some "failure") :=
  monitorLoop_spec (observedNames first) rest b h

/-- A check run that completed with the FAILURE-class conclusion
`timed_out`. -/
def timedOutRun : CheckRun := ⟨"build", "completed", some "timed_out"⟩

/-- C1 counterexample: a baseline task completed with FAILURE-class
conclusion `timed_out`, yet the aggregator's verdict is SUCCESS
(`some true`), because `monitor_checks` only compares conclusions against
the exact string `failure`. -/
theorem monitor_checks_verdict_cex :
    monitor_checks [[timedOutRun], [timedOutRun]] = some true
    ∧ timedOutRun.status = "completed"
    ∧ timedOutRun.conclusion = some "timed_out" := by decide

/-- A check run still queued (first poll). -/
def queuedRun : CheckRun := ⟨"build", "queued", none⟩

/-- A check run completed with the conclusion `failure`. -/
def failedRun : CheckRun := ⟨"build", "completed", some "failure"⟩

/-- Witness for C1: the amended theorem applied to a concrete run where the
check fails, yielding verdict FAILURE. -/
theorem monitor_checks_verdict_witness :
    monitor_checks [[queuedRun], [failedRun]] = some false
    ∧ ∃ s ∈ [[failedRun]],
        (pollSets (observedNames [queuedRun]) s).1 = observedNames [queuedRun]
        ∧ ((false : Bool) = false ↔ ∃ r ∈ s, r.name ∈ observedNames [queuedRun]
            ∧ r.status = "completed" ∧ r.conclusion = some "failure") :=
  ⟨by decide, monitor_checks_verdict [queuedRun] [[failedRun]] false (by decide)⟩

/-- Runs whose names are outside the baseline never change the accumulated
poll sets. -/
theorem pollStep_foldl_filter (baseline : Finset String) :
    ∀ (runs : List CheckRun) (init : Finset String × Finset String),
    (runs.filter (fun r => decide (r.name ∈ baseline))).foldl
        (pollStep baseline) init
      = runs.foldl (pollStep baseline) init := by
  intro runs
  induction runs with
  | nil => intro _; rfl
  | cons r rs ih =>
    intro init
    by_cases h : r.name ∈ baseline
    · rw [List.filter_cons_of_pos (by simpa using h), List.foldl_cons,
        List.foldl_cons, ih]
    · rw [List.filter_cons_of_neg (by simpa using h), List.foldl_cons, ih]
      congr 1
      simp [pollStep, h]

/-- Dropping every non-baseline run from every later snapshot leaves the
poll loop's result unchanged. -/
theorem monitorLoop_filter (baseline : Finset String) :
    ∀ polls : List (List CheckRun),
    monitorLoop baseline
        (polls.map (fun s => s.filter (fun r => decide (r.name ∈ baseline))))
      = monitorLoop baseline polls := by
  intro polls
  induction polls with
  | nil => rfl
  | cons s rest ih =>
    rw [List.map_cons]
    simp only [monitorLoop]
    have hps : pollSets baseline (s.filter (fun r => decide (r.name ∈ baseline)))
        = pollSets baseline s := by
      simpa [pollSets] using pollStep_foldl_filter baseline s (∅, ∅)
    rw [hps, ih]

/-- The poll loop returns a verdict exactly when some supplied snapshot has
all baseline names completed. -/
theorem monitorLoop_isSome (baseline : Finset String) :
    ∀ polls : List (List CheckRun),
    ((monitorLoop baseline polls).isSome ↔
      ∃ s ∈ polls, (pollSets baseline s).1 = baseline) := by
  intro polls
  induction polls with
  | nil => simp [monitorLoop]
  | cons s rest ih =>
    simp only [monitorLoop]
    by_cases hc : (pollSets baseline s).1 = baseline
    · simp [hc]
    · rw [if_neg hc, ih]
      constructor
      · rintro ⟨s', hs', h⟩
        exact ⟨s', List.mem_cons_of_mem s hs', h⟩
      · rintro ⟨s', hs', h⟩
        rcases List.mem_cons.mp hs' with rfl | hs'
        · exact absurd h hc
        · exact ⟨s', hs', h⟩

/-- C5: the aggregation scope is fixed by the names of the first snapshot —
removing every non-baseline run from all later snapshots leaves the result
of `monitor_checks` unchanged — and the loop terminates exactly when some
poll snapshot has every baseline name completed. -/
theorem monitor_checks_baseline_scope (first : List CheckRun)
    (rest : List (List CheckRun)) :
    monitor_checks (first :: rest.map
        (fun s => s.filter (fun r => decide (r.name ∈ observedNames first))))
      = monitor_checks (first :: rest)
    ∧ ((monitor_checks (first :: rest)).isSome ↔
        ∃ s ∈ rest, (pollSets (observedNames first) s).1 = observedNames first) :=
  ⟨monitorLoop_filter (observedNames first) rest,
   monitorLoop_isSome (observedNames first) rest⟩

/-- `process_check_run` from `auto_deploy.py`: classifies one check run into
a commit-status state and threads the `all_check_runs_complete` flag, which
is cleared only for runs whose status is not `completed`. -/
def process_check_run (check_run : CheckRun) (all_check_runs_complete : Bool) :
    String × Bool :=
  if check_run.status = "completed" then
    if check_run.conclusion ∈ [some "success", some "skipped", some "neutral"] then
      ("success", all_check_runs_complete)
    else if check_run.conclusion ∈ [some "failure", some "timed_out",
        some "action_required", some "stale", some "cancelled"] then
      ("failure", all_check_runs_complete)
    else if check_run.conclusion = none then
      ("pending", all_check_runs_complete)
    else
      ("pending", all_check_runs_complete)
  else if check_run.status ∈ ["in_progress", "queued"] then
    ("pending", false)
  else
    ("pending", false)

/-- A commit status written onto the local repository's tagged commit. -/
structure CommitStatusRecord where
  state : String
  targetUrl : String
  description : String
  context : String
deriving DecidableEq

/-- `update_local_commit_status` from `auto_deploy.py`: the status record it
posts for one check run (the target commit is the local tag's commit,
constant across the loop). -/
def update_local_commit_status (check_run : CheckRun) (state : String)
    (pr_number : Nat) (pr_url : String) (release_tag : String) :
    CommitStatusRecord :=
  { state := state
    targetUrl := pr_url
    description := "PR #" ++ toString pr_number
    context := check_run.name ++ "  / v" ++ release_tag }

/-- Body of the per-run loop inside `sync_local_commit_with_remote_checks`:
classify the run, thread the completion flag, and post a status exactly when
the run's status is `completed`. -/
def syncStep (pr_number : Nat) (pr_url release_tag : String)
    (acc : Bool × List CommitStatusRecord) (r : CheckRun) :
    Bool × List CommitStatusRecord :=
  let sr := process_check_run r acc.1
  if r.status = "completed" then
    (sr.2, acc.2 ++ [update_local_commit_status r sr.1 pr_number pr_url release_tag])
  else (sr.2, acc.2)

/-- One iteration of the `while not all_check_runs_complete` loop: the flag
is reset to true, then every check run of the fresh snapshot (all suites'
runs concatenated in order) is processed. Returns the final flag and the
statuses written this iteration. -/
def processRuns (pr_number : Nat) (pr_url release_tag : String)
    (runs : List CheckRun) : Bool × List CommitStatusRecord :=
  runs.foldl (syncStep pr_number pr_url release_tag) (true, [])

/-- The polling loop of `sync_local_commit_with_remote_checks` over the
successive snapshots the host returns: each iteration consumes one snapshot
and contributes its list of status writes; the loop exits after the first
iteration whose completion flag remains true. `none` means the snapshots ran
out with runs still incomplete. -/
def syncLoop (pr_number : Nat) (pr_url release_tag : String) :
    List (List CheckRun) → Option (List (List CommitStatusRecord))
  | [] => none
  | runs :: rest =>
    let pr := processRuns pr_number pr_url release_tag runs
    if pr.1 then some [pr.2]
    else (syncLoop pr_number pr_url release_tag rest).map (fun ws => pr.2 :: ws)

/-- The state assigned by `process_check_run` does not depend on the
incoming completion flag. -/
theorem process_check_run_state_const (r : CheckRun) (b : Bool) :
    (process_check_run r b).1 = (process_check_run r true).1 := by
  unfold process_check_run
  split_ifs <;> rfl

/-- The statuses accumulated over a run list are one write per completed
run, in order, regardless of the flag and accumulator they start from. -/
theorem syncStep_foldl_writes (pr_number : Nat) (pr_url release_tag : String) :
    ∀ (runs : List CheckRun) (b : Bool) (acc : List CommitStatusRecord),
    (runs.foldl (syncStep pr_number pr_url release_tag) (b, acc)).2
      = acc ++ (runs.filter (fun r => decide (r.status = "completed"))).map
          (fun r => update_local_commit_status r (process_check_run r true).1
            pr_number pr_url release_tag) := by
  intro runs
  induction runs with
  | nil => intro b acc; simp
  | cons r rs ih =>
    intro b acc
    rw [List.foldl_cons]
    by_cases h : r.status = "completed"
    · have hstep : syncStep pr_number pr_url release_tag (b, acc) r
          = ((process_check_run r b).2,
            acc ++ [update_local_commit_status r (process_check_run r true).1
              pr_number pr_url release_tag]) := by
        simp [syncStep, h, process_check_run_state_const]
      rw [hstep, ih, List.filter_cons_of_pos (by simpa using h), List.map_cons,
        List.append_assoc]
      rfl
    · have hstep : syncStep pr_number pr_url release_tag (b, acc) r
          = ((process_check_run r b).2, acc) := by
        simp [syncStep, h]
      rw [hstep, ih, List.filter_cons_of_neg (by simpa using h)]

/-- The writes of one loop iteration: exactly one status record per check
run observed `completed` in that snapshot, none for the others. -/
theorem processRuns_writes (pr_number : Nat) (pr_url release_tag : String)
    (runs : List CheckRun) :
    (processRuns pr_number pr_url release_tag runs).2
      = (runs.filter (fun r => decide (r.status = "completed"))).map
          (fun r => update_local_commit_status r (process_check_run r true).1
            pr_number pr_url release_tag) := by
  simpa [processRuns] using
    syncStep_foldl_writes pr_number pr_url release_tag runs true []

/-- C6: in every executed iteration of the StatusMirror loop, the statuses
written are exactly one record per check run observed `completed` in that
iteration's snapshot (none for non-completed runs), recomputed fresh every
iteration with no deduplication against earlier iterations. -/
theorem sync_local_commit_writes (pr_number : Nat) (pr_url release_tag : String) :
    ∀ (snaps : List (List CheckRun)) (wss : List (List CommitStatusRecord)),
    syncLoop pr_number pr_url release_tag snaps = some wss →
    ∀ (i : ℕ) (ws : List CommitStatusRecord), wss[i]? = some ws →
      ∃ s, snaps[i]? = some s
        ∧ ws = (s.filter (fun r => decide (r.status = "completed"))).map
            (fun r => update_local_commit_status r (process_check_run r true).1
              pr_number pr_url release_tag) := by
  intro snaps
  induction snaps with
  | nil => intro wss h; exact absurd h (by simp [syncLoop])
  | cons s rest ih =>
    intro wss h i ws hws
    simp only [syncLoop] at h
    by_cases hc : (processRuns pr_number pr_url release_tag s).1 = true
    · rw [if_pos hc] at h
      injection h with h'
      subst h'
      cases i with
      | zero =>
        simp only [List.getElem?_cons_zero, Option.some.injEq] at hws
        subst hws
        exact ⟨s, by simp, processRuns_writes pr_number pr_url release_tag s⟩
      | succ i => simp at hws
    · rw [if_neg hc] at h
      rcases hrec : syncLoop pr_number pr_url release_tag rest with _ | ws'
      · rw [hrec] at h; simp at h
      · rw [hrec] at h
        simp only [Option.map_some'] at h
        injection h with h'
        subst h'
        cases i with
        | zero =>
          simp only [List.getElem?_cons_zero, Option.some.injEq] at hws
          subst hws
          exact ⟨s, by simp, processRuns_writes pr_number pr_url release_tag s⟩
        | succ i =>
          simp only [List.getElem?_cons_succ] at hws ⊢
          exact ih ws' hrec i ws hws

/-- A check run still in progress (not yet written). -/
def inProgressRun : CheckRun := ⟨"build", "in_progress", none⟩

/-- A check run completed with conclusion `success`. -/
def succeededRun : CheckRun := ⟨"build", "completed", some "success"⟩

/-- Witness for C6: a two-iteration run — nothing written while in
progress, exactly one status written for the completed run. -/
theorem sync_local_commit_writes_witness :
    syncLoop 7 "url" "v1" [[inProgressRun], [succeededRun]]
      = some [[], [update_local_commit_status succeededRun "success" 7 "url" "v1"]]
    ∧ ∃ s, [[inProgressRun], [succeededRun]][1]? = some s
        ∧ [update_local_commit_status succeededRun "success" 7 "url" "v1"]
          = (s.filter (fun r => decide (r.status = "completed"))).map
              (fun r => update_local_commit_status r (process_check_run r true).1
                7 "url" "v1") :=
  ⟨by decide,
   sync_local_commit_writes 7 "url" "v1" [[inProgressRun], [succeededRun]]
     [[], [update_local_commit_status succeededRun "success" 7 "url" "v1"]]
     (by decide) 1
     [update_local_commit_status succeededRun "success" 7 "url" "v1"]
     (by decide)⟩
